import Mathlib

/-!
Verification of the l-essence-inventario product-catalog REST API.

The repository contains several revisions of the same Express + Mongoose
server.  We shallowly embed the two revisions the claims are about:

* revision A ("presentaciones" revision, src/server.js lines 1-443 and
  the near-identical copies): products are keyed by (codigo, location),
  stock lives in a nested presentaciones array, POST /products skips
  invalid entries and issues one descriptive $set upsert plus one
  positional $inc per presentation;

* revision B ("codigo+volumen" revision, src/server.js lines 443-956):
  products are keyed by (codigo, volumen), stock is a flat field, POST
  /products aborts the whole batch with 400 on any invalid entry and
  issues one $set upsert (stock included, i.e. overwrite) per entry.

MongoDB updateOne semantics are modelled as "update the first matching
document of the store list"; an upsert that matches nothing appends a
document built from the equality filter plus the $set fields.  JS
truthiness of strings ("" and undefined are falsy) is modelled on
Option String.  HTTP statuses are plain Nat.
-/

namespace Inventario

/-- JS truthiness for an optional string field: undefined/absent and the
empty string are falsy. -/
def strTruthy : Option String → Bool
  | none => false
  | some s => s ≠ ""

/-- First element of the list satisfying the predicate (Mongo findOne on
the store). -/
def findFirst (q : α → Bool) : List α → Option α
  | [] => none
  | x :: xs => if q x then some x else findFirst q xs

/-- Mongo updateOne without upsert: rewrite the first document matching
the filter q with the update g.  Returns the new store and the matched
document (before the update), if any. -/
def updateFirstWhere (q : α → Bool) (g : α → α) : List α → List α × Option α
  | [] => ([], none)
  | x :: xs =>
    if q x then (g x :: xs, some x)
    else
      let r := updateFirstWhere q g xs
      (x :: r.1, r.2)

/-- Mongo updateOne with upsert: update the first document matching
the filter q with g; when nothing matches, append the document d
(equality-filter fields plus $set fields). -/
def mongoUpsert (q : α → Bool) (g : α → α) (d : α) (S : List α) :
    List α :=
  match findFirst q S with
  | some _ => (updateFirstWhere q g S).1
  | none => S ++ [d]

/-- The first q-match of the list (if any) satisfies P.  Used to state
that a store's first filter-match is already a fixed point of an
update. -/
def firstIs (q : α → Bool) (P : α → Prop) : List α → Prop
  | [] => False
  | x :: xs => if q x then P x else firstIs q P xs

/-- Mongo findOneAndDelete: remove the first document matching the
filter; returns the new store and the removed document, if any. -/
def removeFirstWhere (q : α → Bool) : List α → List α × Option α
  | [] => ([], none)
  | x :: xs =>
    if q x then (xs, some x)
    else
      let r := removeFirstWhere q xs
      (x :: r.1, r.2)

/-- mongoose.Types.ObjectId.isValid: a 12-character string (12 raw
bytes) or a 24-character hex string. -/
def isHexDigit (c : Char) : Bool :=
  c.isDigit || (Char.ofNat 97 ≤ c && c ≤ Char.ofNat 102) ||
    (Char.ofNat 65 ≤ c && c ≤ Char.ofNat 70)

/-- Validity of a MongoDB ObjectId string, as mongoose checks it. -/
def isValidObjectId (s : String) : Bool :=
  s.length == 12 || (s.length == 24 && s.toList.all isHexDigit)

/-- One entry of a presentaciones array in an incoming JSON payload
(stock may be omitted). -/
structure PresPayload where
  presentacion : String
  stock : Option Int := none
deriving DecidableEq

/-- An incoming JSON product payload: the superset of the fields the
POST and PUT handlers of both revisions destructure.  Every field is
optional, as in JSON; absent is none.  concentracion_alcohol is
Schema.Types.Mixed in the source and is modelled as Int. -/
structure Payload where
  _id : Option String := none
  __v : Option Int := none
  codigo : Option String := none
  nombre : Option String := none
  concentracion_alcohol : Option Int := none
  precio : Option Int := none
  precio_neto : Option Int := none
  precio_neto_cs : Option Int := none
  descripcion : Option String := none
  marca : Option String := none
  genero : Option String := none
  categoria : Option String := none
  etiquetas : Option (List String) := none
  tiene_descuento : Option Bool := none
  porcentaje_descuento : Option Int := none
  precio_con_descuento : Option Int := none
  presentaciones : Option (List PresPayload) := none
  stock : Option Int := none
  imagen_primaria : Option String := none
  imagen_secundaria : Option String := none
  imagen_alternativa : Option String := none
  location : Option String := none
  volumen : Option String := none
deriving DecidableEq

/-! ## Revision A: the presentaciones revision (src/server.js lines
1-443; same handler again at lines 956-1432 and in
src/unnamed/part_000).  Stock lives in a nested presentaciones array;
the POST key is the pair (codigo, location). -/

/-- One stored presentation sub-record: a variant string and its
stock. -/
structure Pres where
  presentacion : String
  stock : Int
deriving DecidableEq

/-- A stored product document of the presentaciones revision.  oid is
the MongoDB _id. -/
structure ProductA where
  oid : String
  codigo : String
  nombre : String
  concentracion_alcohol : Int
  precio : Int
  precio_neto : Int
  precio_neto_cs : Int
  descripcion : String
  marca : String
  genero : String
  categoria : String
  etiquetas : List String
  tiene_descuento : Bool
  porcentaje_descuento : Int
  precio_con_descuento : Int
  presentaciones : List Pres
  imagen_primaria : String
  imagen_secundaria : String
  imagen_alternativa : String
  location : String
deriving DecidableEq

/-- Validation of one POST /products entry in revision A:
`if (!productData.codigo || !productData.presentaciones)`.  An array
value is truthy whenever it is present (even empty), a string must be
present and non-empty. -/
def validA (p : Payload) : Bool :=
  strTruthy p.codigo && p.presentaciones.isSome

/-- The $set part of revision A's descriptive upsert: exactly the
fields listed in the handler's update object, with the destructuring
defaults for omitted ones.  presentaciones is NOT among them (the
handler builds a separate presentacionesUpdate object but never uses
it). -/
def applySetA (p : Payload) (r : ProductA) : ProductA :=
  { r with
    nombre := p.nombre.getD ""
    concentracion_alcohol := p.concentracion_alcohol.getD 0
    precio := p.precio.getD 0
    precio_neto := p.precio_neto.getD 0
    precio_neto_cs := p.precio_neto_cs.getD 0
    descripcion := p.descripcion.getD ""
    marca := p.marca.getD ""
    genero := p.genero.getD "Unisex"
    categoria := p.categoria.getD ""
    etiquetas := p.etiquetas.getD []
    tiene_descuento := p.tiene_descuento.getD false
    porcentaje_descuento := p.porcentaje_descuento.getD 0
    precio_con_descuento := p.precio_con_descuento.getD 0
    imagen_primaria := p.imagen_primaria.getD ""
    imagen_secundaria := p.imagen_secundaria.getD ""
    imagen_alternativa := p.imagen_alternativa.getD ""
    location := p.location.getD "" }

/-- A blank document, used to build the document a Mongo upsert
inserts (equality-filter fields plus $set fields; every other field is
simply absent, and mongoose hydrates an absent array path as []). -/
def blankA : ProductA :=
  { oid := "", codigo := "", nombre := "", concentracion_alcohol := 0,
    precio := 0, precio_neto := 0, precio_neto_cs := 0, descripcion := "",
    marca := "", genero := "", categoria := "", etiquetas := [],
    tiene_descuento := false, porcentaje_descuento := 0,
    precio_con_descuento := 0, presentaciones := [], imagen_primaria := "",
    imagen_secundaria := "", imagen_alternativa := "", location := "" }

/-- The document inserted when revision A's descriptive upsert matches
nothing: the filter's codigo and location plus the $set fields.  Note
presentaciones stays empty. -/
def insertDocA (p : Payload) : ProductA :=
  { applySetA p blankA with codigo := p.codigo.getD "" }

/-- Revision A's upsert filter { codigo, location }. -/
def matchA (codigo location : String) (r : ProductA) : Bool :=
  r.codigo == codigo && r.location == location

/-- The positional $inc 'presentaciones.$.stock': increment the stock
of the first array element whose presentacion equals the queried
one. -/
def incPres (pres : String) (amt : Int) (l : List Pres) : List Pres :=
  (updateFirstWhere (fun e => e.presentacion == pres)
    (fun e => { e with stock := e.stock + amt }) l).1

/-- The filter of one per-presentation $inc operation:
{ codigo, location, 'presentaciones.presentacion': pres }. -/
def matchIncA (codigo location pres : String) (r : ProductA) : Bool :=
  matchA codigo location r &&
    r.presentaciones.any (fun e => e.presentacion == pres)

/-- The document update performed by one $inc
'presentaciones.$.stock' operation. -/
def incDoc (pres : String) (amt : Int) (r : ProductA) : ProductA :=
  { r with presentaciones := incPres pres amt r.presentaciones }

/-- One operation of revision A's bulkWrite: either the descriptive
$set upsert keyed by (codigo, location), or one per-presentation $inc
keyed by (codigo, location, presentaciones.presentacion). -/
inductive OpA where
  | upsertDescr (p : Payload)
  | incStock (codigo location presentacion : String) (amount : Int)

/-- The operations one valid payload contributes to the batch: the
descriptive upsert followed by one $inc per entry of its
presentaciones array (p.stock || 0). -/
def opsOfPayloadA (p : Payload) : List OpA :=
  OpA.upsertDescr p ::
    (p.presentaciones.getD []).map (fun pr =>
      OpA.incStock (p.codigo.getD "") (p.location.getD "")
        pr.presentacion (pr.stock.getD 0))

/-- Apply one bulk operation to the store.  Returns the new store,
whether a document was upserted, and whether a matched document was
actually modified. -/
def applyOpA : OpA → List ProductA → List ProductA × Bool × Bool
  | OpA.upsertDescr p, S =>
    (mongoUpsert (matchA (p.codigo.getD "") (p.location.getD ""))
       (applySetA p) (insertDocA p) S,
     (findFirst (matchA (p.codigo.getD "") (p.location.getD "")) S).isNone,
     match findFirst (matchA (p.codigo.getD "") (p.location.getD "")) S with
     | some x => decide (applySetA p x ≠ x)
     | none => false)
  | OpA.incStock codigo location pres amt, S =>
    ((updateFirstWhere (matchIncA codigo location pres) (incDoc pres amt) S).1,
     false,
     match findFirst (matchIncA codigo location pres) S with
     | some x => decide (incDoc pres amt x ≠ x)
     | none => false)

/-- Result of a bulkWrite: final store, upsertedCount and
modifiedCount. -/
structure BulkRes (α : Type) where
  store : List α
  upsertedCount : Nat
  modifiedCount : Nat

/-- Ordered bulkWrite of revision A: apply the operations in order,
summing the counts. -/
def bulkA : List OpA → List ProductA → BulkRes ProductA
  | [], S => ⟨S, 0, 0⟩
  | op :: ops, S =>
    let t := applyOpA op S
    let r := bulkA ops t.1
    ⟨r.store, (if t.2.1 then 1 else 0) + r.upsertedCount,
      (if t.2.2 then 1 else 0) + r.modifiedCount⟩

/-- One entry of the results array revision A's POST /products
responds with: either a per-entry validation error carrying the
offending payload, or the success entry with the bulk counts. -/
inductive ResultEntryA where
  | err (product : Payload)
  | ok (insertedCount modifiedCount : Nat)
deriving DecidableEq

/-- Revision A's POST loop over the body entries: an invalid entry
contributes an error result and no operation (continue); a valid entry
contributes its operations and no result. -/
def loopA : List Payload → List ResultEntryA × List OpA
  | [] => ([], [])
  | p :: rest =>
    let r := loopA rest
    if validA p then (r.1, opsOfPayloadA p ++ r.2)
    else (ResultEntryA.err p :: r.1, r.2)

/-- The full response of a POST /products call in revision A. -/
structure PostAResult where
  status : Nat
  results : List ResultEntryA
  store : List ProductA

/-- Revision A's POST /products handler: normalize the body to a list,
collect per-entry errors while building the batch, run the bulkWrite
only when the batch is non-empty, append the success entry, and
respond 200 with the results array (even when some entries were
invalid). -/
def postA (S : List ProductA) (body : List Payload) : PostAResult :=
  let l := loopA body
  if l.2.isEmpty then ⟨200, l.1, S⟩
  else
    let b := bulkA l.2 S
    ⟨200, l.1 ++ [ResultEntryA.ok b.upsertedCount b.modifiedCount], b.store⟩

/-- GET /products/:codigo in revision A: findOne by codigo, 404 when
absent. -/
def getByCodigoA (S : List ProductA) (codigo : String) :
    Nat × Option ProductA :=
  match findFirst (fun r => r.codigo == codigo) S with
  | some r => (200, some r)
  | none => (404, none)

/-- GET /products/id/:id in revision A: findById with NO format guard;
mongoose raises a CastError on a malformed id, which the handler's
catch turns into a 500 response. -/
def getByIdA (S : List ProductA) (idStr : String) : Nat × Option ProductA :=
  if !isValidObjectId idStr then (500, none)
  else
    match findFirst (fun r => r.oid == idStr) S with
    | some r => (200, some r)
    | none => (404, none)

/-- DELETE /products/:codigo: findOneAndDelete by codigo, 404 when
nothing matches. -/
def deleteByCodigoA (S : List ProductA) (codigo : String) :
    Nat × List ProductA :=
  let r := removeFirstWhere (fun p => p.codigo == codigo) S
  match r.2 with
  | some _ => (200, r.1)
  | none => (404, S)

/-- DELETE /products/all handler body: deleteMany({}), 200 with the
count when deletedCount > 0, else 404. -/
def deleteAllA (S : List ProductA) : Nat × List ProductA :=
  if S.length > 0 then (200, []) else (404, S)

/-- Express dispatch of DELETE /products/<seg>: the route
'/products/:codigo' is registered before '/products/all', and Express
matches routes in registration order, so every such request (including
seg = "all") is handled by the by-codigo route. -/
def deleteDispatchA (S : List ProductA) (seg : String) : Nat × List ProductA :=
  deleteByCodigoA S seg

/-- PATCH /products/location/:codigo: 400 when the body's location is
falsy (absent or empty), 404 when no product has the codigo, otherwise
set the location of the first matching document and save it. -/
def patchLocationA (S : List ProductA) (codigo : String)
    (loc : Option String) : Nat × List ProductA :=
  if !strTruthy loc then (400, S)
  else
    match findFirst (fun r => r.codigo == codigo) S with
    | none => (404, S)
    | some _ =>
      (200, (updateFirstWhere (fun r => r.codigo == codigo)
        (fun r => { r with location := loc.getD "" }) S).1)

/-! ## Revision B: the codigo+volumen revision (src/server.js lines
443-956).  Stock is a flat field, the POST key is the compound
(codigo, volumen), and the batch is aborted with 400 on any invalid
entry. -/

/-- A stored product document of the codigo+volumen revision. -/
structure ProductCV where
  oid : String
  codigo : String
  nombre : String
  concentracion_alcohol : Int
  precio : Int
  precio_neto : Int
  precio_neto_cs : Int
  descripcion : String
  marca : String
  genero : String
  categoria : String
  etiquetas : List String
  tiene_descuento : Bool
  porcentaje_descuento : Int
  precio_con_descuento : Int
  stock : Int
  imagen_primaria : String
  imagen_secundaria : String
  imagen_alternativa : String
  location : String
  volumen : String
deriving DecidableEq

/-- Validation of one POST /products entry in revision B:
`if (!product.codigo || !product.volumen)`. -/
def validCV (p : Payload) : Bool :=
  strTruthy p.codigo && strTruthy p.volumen

/-- The $set part of revision B's upsert: every destructured field,
stock included ($set, i.e. overwrite, not $inc), plus volumen. -/
def applySetCV (p : Payload) (r : ProductCV) : ProductCV :=
  { r with
    nombre := p.nombre.getD ""
    concentracion_alcohol := p.concentracion_alcohol.getD 0
    precio := p.precio.getD 0
    precio_neto := p.precio_neto.getD 0
    precio_neto_cs := p.precio_neto_cs.getD 0
    descripcion := p.descripcion.getD ""
    marca := p.marca.getD ""
    genero := p.genero.getD "Unisex"
    categoria := p.categoria.getD ""
    etiquetas := p.etiquetas.getD []
    tiene_descuento := p.tiene_descuento.getD false
    porcentaje_descuento := p.porcentaje_descuento.getD 0
    precio_con_descuento := p.precio_con_descuento.getD 0
    stock := p.stock.getD 0
    imagen_primaria := p.imagen_primaria.getD ""
    imagen_secundaria := p.imagen_secundaria.getD ""
    imagen_alternativa := p.imagen_alternativa.getD ""
    location := p.location.getD ""
    volumen := p.volumen.getD "" }

/-- A blank codigo+volumen document for building upsert inserts. -/
def blankCV : ProductCV :=
  { oid := "", codigo := "", nombre := "", concentracion_alcohol := 0,
    precio := 0, precio_neto := 0, precio_neto_cs := 0, descripcion := "",
    marca := "", genero := "", categoria := "", etiquetas := [],
    tiene_descuento := false, porcentaje_descuento := 0,
    precio_con_descuento := 0, stock := 0, imagen_primaria := "",
    imagen_secundaria := "", imagen_alternativa := "", location := "",
    volumen := "" }

/-- The document revision B's upsert inserts when nothing matches: the
filter's codigo and volumen plus all $set fields. -/
def insertDocCV (p : Payload) : ProductCV :=
  { applySetCV p blankCV with codigo := p.codigo.getD "" }

/-- Revision B's upsert filter { codigo, volumen }. -/
def matchCV (codigo volumen : String) (r : ProductCV) : Bool :=
  r.codigo == codigo && r.volumen == volumen

/-- Apply one of revision B's upsert operations (one per payload). -/
def applyOpCV (p : Payload) (S : List ProductCV) :
    List ProductCV × Bool × Bool :=
  (mongoUpsert (matchCV (p.codigo.getD "") (p.volumen.getD ""))
     (applySetCV p) (insertDocCV p) S,
   (findFirst (matchCV (p.codigo.getD "") (p.volumen.getD "")) S).isNone,
   match findFirst (matchCV (p.codigo.getD "") (p.volumen.getD "")) S with
   | some x => decide (applySetCV p x ≠ x)
   | none => false)

/-- Ordered bulkWrite of revision B. -/
def bulkCV : List Payload → List ProductCV → BulkRes ProductCV
  | [], S => ⟨S, 0, 0⟩
  | p :: ps, S =>
    let t := applyOpCV p S
    let r := bulkCV ps t.1
    ⟨r.store, (if t.2.1 then 1 else 0) + r.upsertedCount,
      (if t.2.2 then 1 else 0) + r.modifiedCount⟩

/-- The response body of revision B's POST /products: either the 400
array of per-entry validation errors, the 200 success object
{ status, insertedCount, modifiedCount }, or a 500 error (e.g. a
bulkWrite on an empty batch, which the driver rejects). -/
inductive RespCV where
  | errors (es : List Payload)
  | ok (insertedCount modifiedCount : Nat)
  | serverError
deriving DecidableEq

/-- The full response of a POST /products call in revision B. -/
structure PostCVResult where
  status : Nat
  body : RespCV
  store : List ProductCV

/-- Revision B's POST /products handler: validate every entry first
and return 400 with the collected error entries if any entry is
invalid; otherwise map every payload to an upsert keyed by
(codigo, volumen), run the bulkWrite, and respond 200 with
{ status, insertedCount, modifiedCount }.  An empty body reaches
bulkWrite([]), which the driver rejects, so the catch answers 500. -/
def postCV (S : List ProductCV) (body : List Payload) : PostCVResult :=
  let errs := body.filter (fun p => !validCV p)
  if !errs.isEmpty then ⟨400, RespCV.errors errs, S⟩
  else if body.isEmpty then ⟨500, RespCV.serverError, S⟩
  else
    let b := bulkCV body S
    ⟨200, RespCV.ok b.upsertedCount b.modifiedCount, b.store⟩

/-- GET /products/:codigo in revision B. -/
def getByCodigoCV (S : List ProductCV) (codigo : String) :
    Nat × Option ProductCV :=
  match findFirst (fun r => r.codigo == codigo) S with
  | some r => (200, some r)
  | none => (404, none)

/-- findById on a codigo+volumen store. -/
def findByIdCV (S : List ProductCV) (idStr : String) : Option ProductCV :=
  findFirst (fun r => r.oid == idStr) S

/-- findByIdAndUpdate's update document: $set exactly the fields the
body provides.  _id and __v were deleted from the body before this
point, so the document's _id is never touched. -/
def applyPartialCV (p : Payload) (r : ProductCV) : ProductCV :=
  { r with
    codigo := p.codigo.getD r.codigo
    nombre := p.nombre.getD r.nombre
    concentracion_alcohol := p.concentracion_alcohol.getD r.concentracion_alcohol
    precio := p.precio.getD r.precio
    precio_neto := p.precio_neto.getD r.precio_neto
    precio_neto_cs := p.precio_neto_cs.getD r.precio_neto_cs
    descripcion := p.descripcion.getD r.descripcion
    marca := p.marca.getD r.marca
    genero := p.genero.getD r.genero
    categoria := p.categoria.getD r.categoria
    etiquetas := p.etiquetas.getD r.etiquetas
    tiene_descuento := p.tiene_descuento.getD r.tiene_descuento
    porcentaje_descuento := p.porcentaje_descuento.getD r.porcentaje_descuento
    precio_con_descuento := p.precio_con_descuento.getD r.precio_con_descuento
    stock := p.stock.getD r.stock
    imagen_primaria := p.imagen_primaria.getD r.imagen_primaria
    imagen_secundaria := p.imagen_secundaria.getD r.imagen_secundaria
    imagen_alternativa := p.imagen_alternativa.getD r.imagen_alternativa
    location := p.location.getD r.location
    volumen := p.volumen.getD r.volumen }

/-- PUT /products/id/:id in revision B (src/server.js lines 768-813):
reject a malformed id with 400; strip _id and __v from the body; when
the body carries a stock value and the product exists, replace it by
current stock + submitted stock (increment semantics); then
findByIdAndUpdate with the remaining fields (overwrite semantics); 404
when the id matches nothing. -/
def putByIdCV (S : List ProductCV) (idStr : String) (body : Payload) :
    Nat × List ProductCV :=
  if !isValidObjectId idStr then (400, S)
  else
    let updateData : Payload := { body with _id := none, __v := none }
    let updateData :=
      if updateData.stock.isSome then
        match findByIdCV S idStr with
        | some cur => { updateData with
            stock := some (cur.stock + updateData.stock.getD 0) }
        | none => updateData
      else updateData
    let r := updateFirstWhere (fun p => p.oid == idStr)
      (applyPartialCV updateData) S
    match r.2 with
    | some _ => (200, r.1)
    | none => (404, S)

/-- DELETE /products/id/:id in revision B (src/server.js lines
859-876): reject a malformed id with 400, findByIdAndDelete, 404 when
the id matches nothing. -/
def deleteByIdCV (S : List ProductCV) (idStr : String) :
    Nat × List ProductCV :=
  if !isValidObjectId idStr then (400, S)
  else
    let r := removeFirstWhere (fun p => p.oid == idStr) S
    match r.2 with
    | some _ => (200, r.1)
    | none => (404, S)

/-! ## Authentication middleware (src/server.js lines 327-359,
src/unnamed/part_000 lines 325-348, src/app.js lines 29-54).  The
outcome of jwt.verify depends on the secret and the clock, so it is
abstracted as a predicate validTok on token strings (false for expired
or otherwise invalid tokens). -/

/-- Outcome of an auth middleware: pass control to the route handler,
or answer with an error status. -/
inductive AuthOutcome where
  | pass
  | reject (status : Nat)
deriving DecidableEq

/-- String prefix test (Express req.path.startsWith), stated on the
character lists. -/
def startsWithJS (s pre : String) : Bool :=
  pre.toList.isPrefixOf s.toList

/-- JS String.prototype.split(' '): split on every single blank;
"".split(' ') is [""]. -/
def jsSplitSpace (s : String) : List String :=
  (s.toList.splitOn ' ').map (fun cs => String.mk cs)

/-- `authHeader && authHeader.split(' ')[1]`: the word after the first
blank of the Authorization header, if any. -/
def bearerToken (h : Option String) : Option String :=
  match h with
  | none => none
  | some s => (jsSplitSpace s).get? 1

/-- The public allow-list of server.js's verifyToken. -/
def publicRoutes : List String := ["/health", "/products", "/products/id/"]

/-- server.js's verifyToken: a request with no (or falsy) token passes
when its path starts with an allow-listed prefix and is rejected with
401 otherwise; a present token is verified, 400 on failure. -/
def verifyTokenServer (validTok : String → Bool) (path : String)
    (h : Option String) : AuthOutcome :=
  let token := bearerToken h
  if !strTruthy token then
    if publicRoutes.any (fun pre => startsWithJS path pre) then AuthOutcome.pass
    else AuthOutcome.reject 401
  else
    if validTok (token.getD "") then AuthOutcome.pass
    else AuthOutcome.reject 400

/-- server.js's app.use wrapper (line 354) in isolation: /health and
/products/id/ are passed through without verification, everything else
goes through verifyToken.  Like part_000's wrapper it is registered
after the product routes of lines 66-316, so only requests matching
none of those routes (or the later /products/id/ routes) reach it. -/
def authGateServer (validTok : String → Bool) (path : String)
    (h : Option String) : AuthOutcome :=
  if path == "/health" || startsWithJS path "/products/id/" then
    AuthOutcome.pass
  else verifyTokenServer validTok path h

/-- src/unnamed/part_000's verifyToken: no allow-list at all; a
missing token is always rejected with 401, an invalid one with 400. -/
def verifyTokenBasic (validTok : String → Bool) (h : Option String) :
    AuthOutcome :=
  let token := bearerToken h
  if !strTruthy token then AuthOutcome.reject 401
  else if validTok (token.getD "") then AuthOutcome.pass
  else AuthOutcome.reject 400

/-- src/unnamed/part_000's app.use wrapper (line 343) in isolation:
only /health is exempt.  This middleware is registered AFTER every
route of that file, so only requests matching none of those routes
ever reach it; getPipelinePart000 below places it at its actual
position in the request pipeline. -/
def authGateBasic (validTok : String → Bool) (path : String)
    (h : Option String) : AuthOutcome :=
  if path == "/health" then AuthOutcome.pass
  else verifyTokenBasic validTok h

/-- src/app.js's authenticateJWT: 401 when the Authorization header is
absent (falsy), 403 when jwt.verify fails on the extracted token
(including a header with no second word, which hands jwt.verify
undefined). -/
def authenticateJWT (validTok : String → Bool) (h : Option String) :
    AuthOutcome :=
  if !strTruthy h then AuthOutcome.reject 401
  else
    match bearerToken h with
    | some t => if validTok t then AuthOutcome.pass else AuthOutcome.reject 403
    | none => AuthOutcome.reject 403

/-- The path split into '/'-separated segments, as Express matches
route patterns ("/products" gives ["", "products"]). -/
def segsOf (path : String) : List String :=
  (path.toList.splitOn (Char.ofNat 47)).map (fun cs => String.mk cs)

/-- GET /products in revision A: find({}) answers 200 with every
record. -/
def getAllA (S : List ProductA) : Nat × List ProductA := (200, S)

/-- The GET routes src/unnamed/part_000 registers BEFORE its auth
app.use: GET /products (line 198) and GET /products/:codigo
(line 209).  Returns the status a matching route answers, none when no
route matches. -/
def getRoutePart000 (S : List ProductA) : List String → Option Nat
  | ["", "products"] => some (getAllA S).1
  | ["", "products", codigo] => some (getByCodigoA S codigo).1
  | _ => none

/-- The request pipeline of src/unnamed/part_000 for a GET request, in
registration order: the product routes come first and serve a matching
request WITHOUT any token check; only a request matching no route
falls through to the verifyToken app.use registered at the end of the
file (line 343), which exempts /health and otherwise rejects (a
passed-through unmatched request ends as Express's 404). -/
def getPipelinePart000 (validTok : String → Bool) (S : List ProductA)
    (path : String) (h : Option String) : Nat :=
  match getRoutePart000 S (segsOf path) with
  | some s => s
  | none =>
    match authGateBasic validTok path h with
    | AuthOutcome.pass => 404
    | AuthOutcome.reject s => s

/-- The request pipeline of src/app.js: cors/helmet/json first, then
the POST /token route, then app.use(authenticateJWT) — registered
BEFORE the POST /products route — so every request other than
POST /token is rejected by the middleware before any route can serve
it (POST /products answers 201 when the token is accepted; anything
else ends as Express's 404). -/
def requestAppJs (validTok : String → Bool) (method path : String)
    (h : Option String) : Nat :=
  if method == "POST" && path == "/token" then 200
  else
    match authenticateJWT validTok h with
    | AuthOutcome.reject s => s
    | AuthOutcome.pass =>
      if method == "POST" && path == "/products" then 201 else 404

/-! ## Derived definitions used by the statements -/

/-- The descriptive content of a stored presentaciones-revision
document: everything except the stock-bearing presentaciones array. -/
def descrA (r : ProductA) : ProductA :=
  { r with presentaciones := [] }

/-- The descriptive content of a stored codigo+volumen document:
everything except the stock field. -/
def descrCV (r : ProductCV) : ProductCV :=
  { r with stock := 0 }

/-- The store reached by applying a list of revision A bulk operations
in order. -/
def applyOpsA (ops : List OpA) (S : List ProductA) : List ProductA :=
  ops.foldl (fun T op => (applyOpA op T).1) S

/-! ## Helper lemmas about the store primitives -/

theorem updateFirstWhere_nil (q : α → Bool) (g : α → α) :
    updateFirstWhere q g ([] : List α) = ([], none) := rfl

theorem updateFirstWhere_cons (q : α → Bool) (g : α → α) (x : α)
    (xs : List α) :
    updateFirstWhere q g (x :: xs) =
      if q x then (g x :: xs, some x)
      else ((x :: (updateFirstWhere q g xs).1), (updateFirstWhere q g xs).2) := by
  simp only [updateFirstWhere]

theorem findFirst_cons (q : α → Bool) (x : α) (xs : List α) :
    findFirst q (x :: xs) = if q x then some x else findFirst q xs := rfl

theorem updateFirstWhere_snd (q : α → Bool) (g : α → α) :
    ∀ S : List α, (updateFirstWhere q g S).2 = findFirst q S := by
  intro S
  induction S with
  | nil => rfl
  | cons x xs ih =>
    by_cases hx : q x <;> simp [updateFirstWhere_cons, findFirst_cons, hx, ih]

theorem updateFirstWhere_fst_of_none (q : α → Bool) (g : α → α) :
    ∀ S : List α, findFirst q S = none → (updateFirstWhere q g S).1 = S := by
  intro S
  induction S with
  | nil => intro _; rfl
  | cons x xs ih =>
    intro h
    by_cases hx : q x
    · simp [findFirst_cons, hx] at h
    · simp [findFirst_cons, hx] at h
      simp [updateFirstWhere_cons, hx, ih h]

theorem findFirst_none_iff (q : α → Bool) :
    ∀ S : List α, findFirst q S = none ↔ ∀ x ∈ S, q x = false := by
  intro S
  induction S with
  | nil => simp [findFirst]
  | cons x xs ih =>
    by_cases hx : q x <;> simp [findFirst_cons, hx, ih]

theorem updateFirstWhere_spec (q : α → Bool) (g : α → α) :
    ∀ (S : List α) (x : α), findFirst q S = some x →
      ∃ pre post, S = pre ++ x :: post ∧ (∀ y ∈ pre, q y = false) ∧
        q x = true ∧ (updateFirstWhere q g S).1 = pre ++ g x :: post := by
  intro S
  induction S with
  | nil => intro x h; simp [findFirst] at h
  | cons a xs ih =>
    intro x h
    by_cases ha : q a
    · simp [findFirst_cons, ha] at h
      subst h
      exact ⟨[], xs, by simp, by simp, ha, by simp [updateFirstWhere_cons, ha]⟩
    · simp [findFirst_cons, ha] at h
      obtain ⟨pre, post, h1, h2, h3, h4⟩ := ih x h
      refine ⟨a :: pre, post, by simp [h1], ?_, h3, ?_⟩
      · intro y hy
        rcases List.mem_cons.mp hy with rfl | hy
        · simpa using ha
        · exact h2 y hy
      · simp [updateFirstWhere_cons, ha, h4]

theorem removeFirstWhere_of_none (q : α → Bool) :
    ∀ S : List α, (∀ x ∈ S, q x = false) → removeFirstWhere q S = (S, none) := by
  intro S
  induction S with
  | nil => intro _; rfl
  | cons x xs ih =>
    intro h
    have hx : q x = false := h x (by simp)
    have hxs : ∀ y ∈ xs, q y = false := fun y hy => h y (by simp [hy])
    simp [removeFirstWhere, hx, ih hxs]

theorem mongoUpsert_nil (q : α → Bool) (g : α → α) (d : α) :
    mongoUpsert q g d [] = [d] := rfl

theorem mongoUpsert_cons (q : α → Bool) (g : α → α) (d : α) (x : α)
    (xs : List α) :
    mongoUpsert q g d (x :: xs) =
      if q x then g x :: xs else x :: mongoUpsert q g d xs := by
  by_cases hx : q x
  · simp [mongoUpsert, findFirst_cons, hx, updateFirstWhere_cons]
  · simp only [mongoUpsert, findFirst_cons, hx, if_false, Bool.false_eq_true,
      updateFirstWhere_cons, ite_false]
    cases h2 : findFirst q xs <;> simp [h2]

/-- After an upsert, the first filter-match of the store is a fixed
point of the update (given that the update preserves the filter, is
idempotent, and the insert document matches and is fixed). -/
theorem firstIs_mongoUpsert (q : α → Bool) (g : α → α) (d : α)
    (hq : ∀ x, q x = true → q (g x) = true) (hgg : ∀ x, g (g x) = g x)
    (hd : q d = true) (hgd : g d = d) :
    ∀ S : List α, firstIs q (fun x => g x = x) (mongoUpsert q g d S) := by
  intro S
  induction S with
  | nil => simp [mongoUpsert_nil, firstIs, hd, hgd]
  | cons x xs ih =>
    by_cases hx : q x
    · simp [mongoUpsert_cons, hx, firstIs, hq x hx, hgg]
    · simp [mongoUpsert_cons, hx, firstIs, ih]

/-- An upsert whose filter's first match is already fixed does not
change the store. -/
theorem mongoUpsert_of_firstIs (q : α → Bool) (g : α → α) (d : α) :
    ∀ S : List α, firstIs q (fun x => g x = x) S → mongoUpsert q g d S = S := by
  intro S
  induction S with
  | nil => intro h; simp [firstIs] at h
  | cons x xs ih =>
    intro h
    by_cases hx : q x
    · simp [firstIs, hx] at h
      simp [mongoUpsert_cons, hx, h]
    · simp [firstIs, hx] at h
      simp [mongoUpsert_cons, hx, ih h]

/-- A pointwise update by g' that preserves the filter q and preserves
fixedness under g keeps the store's first q-match fixed under g. -/
theorem updateFirstWhere_preserves_firstIs (q q' : α → Bool) (g g' : α → α)
    (hq : ∀ x, q (g' x) = q x) (hfix : ∀ x, g x = x → g (g' x) = g' x) :
    ∀ S : List α, firstIs q (fun x => g x = x) S →
      firstIs q (fun x => g x = x) (updateFirstWhere q' g' S).1 := by
  intro S
  induction S with
  | nil => intro h; exact h
  | cons x xs ih =>
    intro h
    by_cases hx' : q' x
    · simp only [updateFirstWhere_cons, hx', if_true]
      by_cases hx : q x
      · simp [firstIs, hx] at h
        simp [firstIs, hq, hx, hfix x h]
      · simp [firstIs, hx] at h
        simp [firstIs, hq, hx, h]
    · simp only [updateFirstWhere_cons, hx', if_false, Bool.false_eq_true]
      by_cases hx : q x
      · simp [firstIs, hx] at h
        simp [firstIs, hx, h]
      · simp [firstIs, hx] at h
        simp [firstIs, hx, ih h]

/-- A pointwise update that is invisible to the projection f leaves
the f-image of the store unchanged. -/
theorem updateFirstWhere_map_eq (q' : α → Bool) (g' : α → α) (f : α → β)
    (hf : ∀ x, f (g' x) = f x) :
    ∀ S : List α, ((updateFirstWhere q' g' S).1).map f = S.map f := by
  intro S
  induction S with
  | nil => rfl
  | cons x xs ih =>
    by_cases hx' : q' x <;> simp [updateFirstWhere_cons, hx', hf, ih]

theorem bulkA_store (ops : List OpA) :
    ∀ S, (bulkA ops S).store = applyOpsA ops S := by
  induction ops with
  | nil => intro S; rfl
  | cons op ops ih => intro S; simp [bulkA, applyOpsA, List.foldl_cons, ih]

theorem bulkCV_store :
    ∀ (ps : List Payload) (S), (bulkCV ps S).store =
      ps.foldl (fun T p => (applyOpCV p T).1) S := by
  intro ps
  induction ps with
  | nil => intro S; rfl
  | cons p ps ih => intro S; simp [bulkCV, List.foldl_cons, ih]

/-! ## Characterizations of the POST handlers -/

theorem loopA_results_eq : ∀ body : List Payload,
    (loopA body).1 = (body.filter (fun p => !validA p)).map ResultEntryA.err := by
  intro body
  induction body with
  | nil => rfl
  | cons p rest ih =>
    by_cases hp : validA p <;> simp [loopA, hp, List.filter_cons, ih]

theorem loopA_ops_eq : ∀ body : List Payload,
    (loopA body).2 = (body.filter validA).flatMap opsOfPayloadA := by
  intro body
  induction body with
  | nil => rfl
  | cons p rest ih =>
    by_cases hp : validA p <;> simp [loopA, hp, List.filter_cons, ih]

theorem postA_store_eq (S : List ProductA) (body : List Payload) :
    (postA S body).store =
      applyOpsA ((body.filter validA).flatMap opsOfPayloadA) S := by
  by_cases he : (loopA body).2.isEmpty
  · have hnil : (loopA body).2 = [] := by
      cases h : (loopA body).2
      · rfl
      · rw [h] at he; simp at he
    rw [← loopA_ops_eq, hnil]
    simp [postA, he, hnil, applyOpsA]
  · simp [postA, he, bulkA_store, ← loopA_ops_eq]

theorem postA_status (S : List ProductA) (body : List Payload) :
    (postA S body).status = 200 := by
  simp only [postA]
  split <;> rfl

theorem postA_store_single_valid (p : Payload) (S : List ProductA)
    (h : validA p = true) :
    (postA S [p]).store = applyOpsA (opsOfPayloadA p) S := by
  rw [postA_store_eq]
  simp [List.filter_cons, h]

theorem postCV_store_single_valid (p : Payload) (S : List ProductCV)
    (h : validCV p = true) :
    (postCV S [p]).store =
      mongoUpsert (matchCV (p.codigo.getD "") (p.volumen.getD ""))
        (applySetCV p) (insertDocCV p) S := by
  simp [postCV, List.filter_cons, h, bulkCV_store, applyOpCV]

theorem postCV_store_single_invalid (p : Payload) (S : List ProductCV)
    (h : validCV p = false) :
    (postCV S [p]).store = S := by
  simp [postCV, List.filter_cons, h]

theorem applyOpsA_cons (op : OpA) (ops : List OpA) (S : List ProductA) :
    applyOpsA (op :: ops) S = applyOpsA ops (applyOpA op S).1 := by
  simp [applyOpsA, List.foldl_cons]

/-- The store effect of one valid payload: the descriptive upsert
followed by the per-presentation increments. -/
theorem applyOpsA_ofPayload (p : Payload) (S : List ProductA) :
    applyOpsA (opsOfPayloadA p) S =
      applyOpsA ((p.presentaciones.getD []).map (fun pr =>
        OpA.incStock (p.codigo.getD "") (p.location.getD "")
          pr.presentacion (pr.stock.getD 0)))
        (mongoUpsert (matchA (p.codigo.getD "") (p.location.getD ""))
          (applySetA p) (insertDocA p) S) := by
  simp [opsOfPayloadA, applyOpsA_cons, applyOpA]

theorem applyOpA_inc_fst (c loc pres : String) (amt : Int)
    (S : List ProductA) :
    (applyOpA (OpA.incStock c loc pres amt) S).1 =
      (updateFirstWhere (matchIncA c loc pres) (incDoc pres amt) S).1 := rfl

/-- The descriptive $set commutes with a $inc document update: the two
touch disjoint fields. -/
theorem applySetA_incDoc (p : Payload) (pres : String) (amt : Int)
    (x : ProductA) :
    applySetA p (incDoc pres amt x) = incDoc pres amt (applySetA p x) := rfl

/-- The per-presentation $inc operations never change the descriptive
projection of any stored document. -/
theorem applyOpsA_incs_map_descr (c loc : String) :
    ∀ (l : List PresPayload) (S : List ProductA),
      (applyOpsA (l.map (fun pr =>
        OpA.incStock c loc pr.presentacion (pr.stock.getD 0))) S).map descrA
      = S.map descrA := by
  intro l
  induction l with
  | nil => intro S; rfl
  | cons pr rest ih =>
    intro S
    rw [List.map_cons, applyOpsA_cons, ih, applyOpA_inc_fst]
    exact updateFirstWhere_map_eq (matchIncA c loc pr.presentacion)
      (incDoc pr.presentacion (pr.stock.getD 0)) descrA (fun x => rfl) S

/-- The per-presentation $inc operations keep the first
(codigo, location)-match of the store a fixed point of the descriptive
$set. -/
theorem applyOpsA_incs_fix (p : Payload) :
    ∀ (l : List PresPayload) (S : List ProductA),
      firstIs (matchA (p.codigo.getD "") (p.location.getD ""))
        (fun x => applySetA p x = x) S →
      firstIs (matchA (p.codigo.getD "") (p.location.getD ""))
        (fun x => applySetA p x = x)
        (applyOpsA (l.map (fun pr =>
          OpA.incStock (p.codigo.getD "") (p.location.getD "")
            pr.presentacion (pr.stock.getD 0))) S) := by
  intro l
  induction l with
  | nil => intro S h; exact h
  | cons pr rest ih =>
    intro S h
    rw [List.map_cons, applyOpsA_cons, applyOpA_inc_fst]
    refine ih _ ?_
    refine updateFirstWhere_preserves_firstIs
      (matchA (p.codigo.getD "") (p.location.getD ""))
      (matchIncA (p.codigo.getD "") (p.location.getD "") pr.presentacion)
      (applySetA p) (incDoc pr.presentacion (pr.stock.getD 0))
      (fun x => rfl) ?_ S h
    intro x hx
    rw [applySetA_incDoc, hx]

theorem postA_store_single_invalid (p : Payload) (S : List ProductA)
    (h : validA p = false) :
    (postA S [p]).store = S := by
  rw [postA_store_eq]
  simp [List.filter_cons, h, applyOpsA]

/-- Revision A's descriptive $set preserves its own upsert filter. -/
theorem matchA_applySet (p : Payload) : ∀ x : ProductA,
    matchA (p.codigo.getD "") (p.location.getD "") x = true →
    matchA (p.codigo.getD "") (p.location.getD "") (applySetA p x) = true := by
  intro x hx
  simp [matchA, applySetA] at hx ⊢
  exact hx.1

/-- Revision A's upsert-insert document matches its own filter. -/
theorem matchA_insertDoc (p : Payload) :
    matchA (p.codigo.getD "") (p.location.getD "") (insertDocA p) = true := by
  simp [matchA, insertDocA, applySetA]

theorem applySetA_idem (p : Payload) (x : ProductA) :
    applySetA p (applySetA p x) = applySetA p x := rfl

theorem applySetA_insertDoc (p : Payload) :
    applySetA p (insertDocA p) = insertDocA p := rfl

/-- Revision B's $set preserves its own upsert filter. -/
theorem matchCV_applySet (p : Payload) : ∀ x : ProductCV,
    matchCV (p.codigo.getD "") (p.volumen.getD "") x = true →
    matchCV (p.codigo.getD "") (p.volumen.getD "") (applySetCV p x) = true := by
  intro x hx
  simp [matchCV, applySetCV] at hx ⊢
  exact hx.1

/-- Revision B's upsert-insert document matches its own filter. -/
theorem matchCV_insertDoc (p : Payload) :
    matchCV (p.codigo.getD "") (p.volumen.getD "") (insertDocCV p) = true := by
  simp [matchCV, insertDocCV, applySetCV]

theorem applySetCV_idem (p : Payload) (x : ProductCV) :
    applySetCV p (applySetCV p x) = applySetCV p x := rfl

theorem applySetCV_insertDoc (p : Payload) :
    applySetCV p (insertDocCV p) = insertDocCV p := rfl

/-! ## Concrete documents and payloads used in the claim theorems -/

/-- A stored presentaciones-revision product with codigo X, default
location and one 50ml presentation holding v units. -/
def presProductC1 (v : Int) : ProductA :=
  { blankA with
    oid := "a"
    codigo := "X"
    presentaciones := [{ presentacion := "50ml", stock := v }] }

/-- A delta-feed payload for revision A: codigo X, one 50ml entry with
stock delta s. -/
def deltaPayloadA (s : Int) : Payload :=
  { codigo := some "X",
    presentaciones := some [{ presentacion := "50ml", stock := some s }] }

/-- The spec's concrete example payload for the codigo+volumen
revision: { codigo: "X", volumen: "50ml", stock: s }. -/
def deltaPayloadCV (s : Int) : Payload :=
  { codigo := some "X", volumen := some "50ml", stock := some s }

/-- The spec's concrete C3 batch entries: { codigo: "A",
volumen: "50ml" } and { codigo: "", volumen: "50ml" } (note neither
carries presentaciones). -/
def c3VolGood : Payload := { codigo := some "A", volumen := some "50ml" }

/-- Second entry of the spec's concrete C3 batch: empty codigo. -/
def c3VolBad : Payload := { codigo := some "", volumen := some "50ml" }

/-- A batch entry that is valid for revision A (codigo plus a
presentaciones array). -/
def c3GoodEntry : Payload :=
  { codigo := some "A",
    presentaciones := some [{ presentacion := "50ml", stock := some 2 }] }

/-- A batch entry that is invalid for revision A (empty codigo). -/
def c3BadEntry : Payload :=
  { codigo := some "",
    presentaciones := some [{ presentacion := "50ml", stock := some 2 }] }

/-- A fresh payload with codigo X and one 50ml presentation holding 5
units. -/
def freshPayloadC4 : Payload :=
  { codigo := some "X",
    presentaciones := some [{ presentacion := "50ml", stock := some 5 }] }

/-- A payload that passes revision B's validation. -/
def c2GoodEntry : Payload := { codigo := some "G", volumen := some "50ml" }

/-- A payload that fails revision B's validation (volumen absent). -/
def c2BadEntry : Payload := { codigo := some "B" }

/-- A payload that fails revision A's validation (presentaciones
absent). -/
def c2BadEntryA : Payload := { codigo := some "X" }

/-- A stored revision A product with codigo X. -/
def sampleProductA : ProductA :=
  { blankA with oid := "a", codigo := "X" }

/-- A stored codigo+volumen product with a well-formed ObjectId. -/
def sampleProductCV : ProductCV :=
  { blankCV with
    oid := "507f1f77bcf86cd799439011"
    codigo := "X"
    volumen := "50ml"
    stock := 10
    nombre := "old" }

/-- An update body carrying a stock delta, a descriptive overwrite and
an _id the handler must strip. -/
def c10Body : Payload :=
  { _id := some "ffffffffffffffffffffffff",
    stock := some 4,
    nombre := some "nuevo" }

/-! ## The claims -/

/-- Claim C1, counterexample.  The claim asserts that posting
{ codigo: "X", volumen: "50ml", stock: 5 } and then the same key with
stock 3 leaves stock 8.  In the codigo+volumen revision those payloads
address (POST /products with a volumen key), the second upsert $sets
stock, so the stored stock afterwards is 3, not 8. -/
theorem c1_counterexample :
    ((getByCodigoCV (postCV (postCV [] [deltaPayloadCV 5]).store
      [deltaPayloadCV 3]).store "X").2.map (fun r => r.stock)) = some 3
  ∧ ((getByCodigoCV (postCV (postCV [] [deltaPayloadCV 5]).store
      [deltaPayloadCV 3]).store "X").2.map (fun r => r.stock)) ≠ some 8 := by
  constructor
  · decide
  · decide

/-- Claim C1, amended.  Stock accumulation holds in the presentaciones
revision's $inc path: for a product already stored with a 50ml
presentation holding v units, posting stock deltas s1 and then s2
leaves that presentation's stock at v + s1 + s2.  (In the
codigo+volumen revision the posted stock overwrites instead; see the
counterexample.) -/
theorem c1_stock_accumulation_amended (v s1 s2 : Int) :
    ((postA (postA [presProductC1 v] [deltaPayloadA s1]).store
      [deltaPayloadA s2]).store).map (fun r => r.presentaciones) =
    [[{ presentacion := "50ml", stock := v + s1 + s2 }]] := rfl

/-- Claim C2, counterexample.  The claim asserts POST /products
responds 400 whenever an entry fails validation; revision A instead
responds 200 (with a per-entry error object in the results array) for
a payload missing its presentaciones array. -/
theorem c2_counterexample :
    validA c2BadEntryA = false
  ∧ (postA [] [c2BadEntryA]).status = 200
  ∧ (postA [] [c2BadEntryA]).status ≠ 400 := by
  refine ⟨by decide, by decide, by decide⟩

/-- Claim C2, amended.  In the codigo+volumen revision, POST /products
answers 200 with a body of shape { status, insertedCount,
modifiedCount } when every entry is valid, and 400 when any entry
fails validation; the presentaciones revision answers 200 even when
entries fail validation, reporting per-entry errors in the body. -/
theorem c2_post_status_amended (S : List ProductCV) (body : List Payload)
    (SA : List ProductA) (bodyA : List Payload) (hne : body ≠ []) :
    ((∀ p ∈ body, validCV p = true) →
      (postCV S body).status = 200 ∧
      ∃ i m, (postCV S body).body = RespCV.ok i m)
  ∧ ((∃ p ∈ body, validCV p = false) → (postCV S body).status = 400)
  ∧ (postA SA bodyA).status = 200 := by
  refine ⟨?_, ?_, postA_status SA bodyA⟩
  · intro hall
    have herrs : body.filter (fun p => !validCV p) = [] := by
      rw [List.filter_eq_nil_iff]
      intro p hp
      simp [hall p hp]
    have hbe : body.isEmpty = false := by
      cases body
      · exact absurd rfl hne
      · rfl
    refine ⟨by simp [postCV, herrs, hbe], ?_⟩
    refine ⟨(bulkCV body S).upsertedCount, (bulkCV body S).modifiedCount, ?_⟩
    simp [postCV, herrs, hbe]
  · rintro ⟨p, hp, hinv⟩
    have hmem : p ∈ body.filter (fun q => !validCV q) :=
      List.mem_filter.mpr ⟨hp, by simp [hinv]⟩
    have hne2 : (body.filter (fun q => !validCV q)).isEmpty = false := by
      cases hf : body.filter (fun q => !validCV q)
      · rw [hf] at hmem; simp at hmem
      · rfl
    simp [postCV, hne2]

/-- Claim C2, witness: a singleton valid batch is answered 200 with
the success shape, a batch with an invalid entry is answered 400. -/
theorem c2_post_status_amended_witness :
    ((postCV [] [c2GoodEntry]).status = 200 ∧
      ∃ i m, (postCV [] [c2GoodEntry]).body = RespCV.ok i m)
  ∧ (postCV [] [c2GoodEntry, c2BadEntry]).status = 400 := by
  refine ⟨(c2_post_status_amended [] [c2GoodEntry] [] [] (by decide)).1
    (by decide), ?_⟩
  exact (c2_post_status_amended [] [c2GoodEntry, c2BadEntry] [] []
    (by decide)).2.1 ⟨c2BadEntry, by decide, by decide⟩

/-- Claim C3, counterexample.  The claim's concrete batch
[{ codigo: "A", volumen: "50ml" }, { codigo: "", volumen: "50ml" }]
should produce an error referencing only the second entry under the
skip-invalid policy; but the skip-invalid revision (revision A)
requires codigo and presentaciones, so BOTH entries are invalid there
and the results reference both. -/
theorem c3_counterexample :
    (postA [] [c3VolGood, c3VolBad]).results =
      [ResultEntryA.err c3VolGood, ResultEntryA.err c3VolBad]
  ∧ (postA [] [c3VolGood, c3VolBad]).results ≠
      [ResultEntryA.err c3VolBad] := by
  refine ⟨by decide, by decide⟩

/-- Claim C3, amended.  Under revision A's skip-invalid policy, with
that revision's required fields (codigo and presentaciones): the
response carries one error entry exactly for each invalid batch entry,
the batch contains operations only for the valid entries, and the
store effect is that of the valid entries alone; e.g. the batch
[{ codigo: "A", presentaciones: [...] }, { codigo: "",
presentaciones: [...] }] yields an error referencing only the second
entry. -/
theorem c3_skip_invalid_amended (body : List Payload) (S : List ProductA) :
    (loopA body).1 = (body.filter (fun p => !validA p)).map ResultEntryA.err
  ∧ (loopA body).2 = (body.filter validA).flatMap opsOfPayloadA
  ∧ (postA S body).store =
      applyOpsA ((body.filter validA).flatMap opsOfPayloadA) S
  ∧ (postA [] [c3GoodEntry, c3BadEntry]).results =
      [ResultEntryA.err c3BadEntry, ResultEntryA.ok 1 0] := by
  exact ⟨loopA_results_eq body, loopA_ops_eq body, postA_store_eq S body,
    by decide⟩

/-- Claim C4 (code bug).  Posting a fresh product
{ codigo: "X", presentaciones: [{ presentacion: "50ml", stock: 5 }] }
to revision A and reading it back by codigo returns a record whose
presentaciones array is empty: the handler computes a
presentacionesUpdate object but never submits it, and the $inc
operations match no element of the freshly inserted document, so the
stock the payload carries is silently dropped. -/
theorem c4_upsert_drops_presentaciones :
    (postA [] [freshPayloadC4]).status = 200
  ∧ (getByCodigoA (postA [] [freshPayloadC4]).store "X").1 = 200
  ∧ (getByCodigoA (postA [] [freshPayloadC4]).store "X").2 =
      some (insertDocA freshPayloadC4)
  ∧ (insertDocA freshPayloadC4).presentaciones = []
  ∧ freshPayloadC4.presentaciones =
      some [{ presentacion := "50ml", stock := some 5 }] := by
  refine ⟨by decide, by decide, by decide, by decide, by decide⟩

/-- Claim C5, counterexample.  GET /products/id/:id has no ObjectId
format guard: on a malformed id the findById cast failure is caught
and answered 500, not the claimed 400. -/
theorem c5_counterexample :
    (getByIdA ([] : List ProductA) "zzz").1 = 500
  ∧ (getByIdA ([] : List ProductA) "zzz").1 ≠ 400 := by
  refine ⟨by decide, by decide⟩

/-- Claim C5, amended.  PUT and DELETE /products/id/:id reject a
malformed id with 400 without touching the store, while GET
/products/id/:id has no format guard and answers 500 on a malformed
id. -/
theorem c5_objectid_guard_amended (idStr : String) (S : List ProductCV)
    (SA : List ProductA) (body : Payload)
    (h : isValidObjectId idStr = false) :
    putByIdCV S idStr body = (400, S)
  ∧ deleteByIdCV S idStr = (400, S)
  ∧ getByIdA SA idStr = (500, none) := by
  refine ⟨?_, ?_, ?_⟩ <;> simp [putByIdCV, deleteByIdCV, getByIdA, h]

/-- Claim C5, witness: the malformed id "zzz" is rejected as
described, leaving concrete stores unchanged. -/
theorem c5_objectid_guard_amended_witness :
    putByIdCV [sampleProductCV] "zzz" c10Body = (400, [sampleProductCV])
  ∧ deleteByIdCV [sampleProductCV] "zzz" = (400, [sampleProductCV])
  ∧ getByIdA [sampleProductA] "zzz" = (500, none) :=
  c5_objectid_guard_amended "zzz" [sampleProductCV] [sampleProductA]
    c10Body (by decide)

/-- Claim C6, counterexample.  The claim asserts GET /products without
a bearer token returns 401 when that route is not on the public
allow-list.  src/unnamed/part_000 has no allow-list, yet its auth
app.use is registered only at line 343, AFTER the GET /products route
of line 198: the route serves the tokenless request with 200 and the
verifyToken middleware never runs. -/
theorem c6_counterexample :
    getPipelinePart000 (fun _ => false) [] "/products" none = 200
  ∧ getPipelinePart000 (fun _ => false) [] "/products" none ≠ 401 := by
  refine ⟨by decide, by decide⟩

/-- Claim C6, amended.  In the app.js revision, where authenticateJWT
is registered before the product route, every request other than
POST /token carrying no bearer token is rejected 401 (in particular
GET /products) and an expired/invalid token gets 403.  In the
part_000 and server.js revisions the verifyToken app.use is registered
after the product routes, so a request matching one of those routes
(e.g. GET /products) is served with no token check at all; only a
request that falls through to the middleware is guarded: 401 with no
token when the path is off the public allow-list (part_000 has no
allow-list; /health is exempt; server.js allow-lists /products
prefixes), 400 with an expired/invalid token. -/
theorem c6_auth_gates (validTok : String → Bool) (method path : String)
    (S : List ProductA) (h : Option String) (t : String)
    (h0 : (method == "POST" && path == "/token") = false)
    (hm : getRoutePart000 S (segsOf path) = none)
    (hp1 : (path == "/health") = false)
    (hp2 : startsWithJS path "/health" = false)
    (hp3 : startsWithJS path "/products" = false)
    (hp4 : startsWithJS path "/products/id/" = false)
    (hht : strTruthy h = true) (hh : bearerToken h = some t)
    (ht : t ≠ "") (hv : validTok t = false) :
    requestAppJs validTok method path none = 401
  ∧ requestAppJs validTok "GET" "/products" none = 401
  ∧ requestAppJs validTok method path h = 403
  ∧ getPipelinePart000 validTok S "/products" none = 200
  ∧ getPipelinePart000 validTok S path none = 401
  ∧ getPipelinePart000 validTok S path h = 400
  ∧ authGateServer validTok path none = AuthOutcome.reject 401
  ∧ authGateServer validTok path h = AuthOutcome.reject 400
  ∧ authGateServer validTok "/products" none = AuthOutcome.pass := by
  refine ⟨?_, rfl, ?_, rfl, ?_, ?_, ?_, ?_, rfl⟩
  · simp [requestAppJs, h0, authenticateJWT, strTruthy]
  · simp [requestAppJs, h0, authenticateJWT, hht, hh, hv]
  · simp [getPipelinePart000, hm, authGateBasic, hp1, verifyTokenBasic,
      bearerToken, strTruthy]
  · simp [getPipelinePart000, hm, authGateBasic, hp1, verifyTokenBasic,
      hh, strTruthy, ht, hv]
  · simp [authGateServer, hp1, hp4, verifyTokenServer, bearerToken,
      strTruthy, publicRoutes, hp2, hp3]
  · simp [authGateServer, hp1, hp4, verifyTokenServer, hh, strTruthy,
      ht, hv]

/-- Claim C6, witness: a GET to the unrouted path "/orders" (off every
allow-list) and the header "Bearer tok" with an always-failing
verifier, against an empty store. -/
theorem c6_auth_gates_witness :
    requestAppJs (fun _ => false) "GET" "/orders" none = 401
  ∧ requestAppJs (fun _ => false) "GET" "/products" none = 401
  ∧ requestAppJs (fun _ => false) "GET" "/orders" (some "Bearer tok") = 403
  ∧ getPipelinePart000 (fun _ => false) [] "/products" none = 200
  ∧ getPipelinePart000 (fun _ => false) [] "/orders" none = 401
  ∧ getPipelinePart000 (fun _ => false) [] "/orders" (some "Bearer tok") = 400
  ∧ authGateServer (fun _ => false) "/orders" none = AuthOutcome.reject 401
  ∧ authGateServer (fun _ => false) "/orders" (some "Bearer tok") =
      AuthOutcome.reject 400
  ∧ authGateServer (fun _ => false) "/products" none = AuthOutcome.pass :=
  c6_auth_gates (fun _ => false) "GET" "/orders" [] (some "Bearer tok") "tok"
    (by decide) (by decide) (by decide) (by decide) (by decide) (by decide)
    (by decide) (by decide) (by decide) rfl

/-- Claim C7.  Deleting a business code with no matching record
answers 404 and leaves the store unchanged; DELETE /products/all on an
empty store answers 404 (the request is captured by the
'/products/:codigo' route registered first, whose findOneAndDelete
matches nothing on an empty store; the delete-all handler itself also
answers 404 when deletedCount is 0). -/
theorem c7_delete_not_found (S : List ProductA) (codigo : String)
    (h : ∀ r ∈ S, (r.codigo == codigo) = false) :
    deleteDispatchA S codigo = (404, S)
  ∧ deleteDispatchA ([] : List ProductA) "all" = (404, [])
  ∧ deleteAllA ([] : List ProductA) = (404, []) := by
  refine ⟨?_, by decide, by decide⟩
  have hr := removeFirstWhere_of_none (fun p => p.codigo == codigo) S h
  simp [deleteDispatchA, deleteByCodigoA, hr]

/-- Claim C7, witness: deleting the absent codigo "Z" from a singleton
store. -/
theorem c7_delete_not_found_witness :
    deleteDispatchA [sampleProductA] "Z" = (404, [sampleProductA])
  ∧ deleteDispatchA ([] : List ProductA) "all" = (404, [])
  ∧ deleteAllA ([] : List ProductA) = (404, []) :=
  c7_delete_not_found [sampleProductA] "Z" (by decide)

/-- Claim C8.  Posting the same payload twice (single-entry body)
leaves every descriptive (non-stock) field of every stored record
unchanged after the second call, in both revisions: the second
descriptive $set rewrites the first key-match with the values it
already carries, and the $inc (revision A) respectively the stock
overwrite (revision B) never touches the descriptive projection of the
second call's result beyond the first call's. -/
theorem c8_descriptive_idempotent (p : Payload) (S : List ProductA)
    (T : List ProductCV) :
    ((postA (postA S [p]).store [p]).store).map descrA
      = ((postA S [p]).store).map descrA
  ∧ ((postCV (postCV T [p]).store [p]).store).map descrCV
      = ((postCV T [p]).store).map descrCV := by
  constructor
  · by_cases hv : validA p
    · rw [postA_store_single_valid p _ hv, postA_store_single_valid p S hv,
        applyOpsA_ofPayload, applyOpsA_ofPayload]
      have fix1 := firstIs_mongoUpsert
        (matchA (p.codigo.getD "") (p.location.getD "")) (applySetA p)
        (insertDocA p) (matchA_applySet p) (applySetA_idem p)
        (matchA_insertDoc p) (applySetA_insertDoc p) S
      have fix2 := applyOpsA_incs_fix p (p.presentaciones.getD []) _ fix1
      rw [mongoUpsert_of_firstIs _ _ _ _ fix2]
      exact applyOpsA_incs_map_descr _ _ _ _
    · rw [postA_store_single_invalid p _ (Bool.not_eq_true _ ▸ hv),
        postA_store_single_invalid p S (Bool.not_eq_true _ ▸ hv)]
  · by_cases hv : validCV p
    · rw [postCV_store_single_valid p _ hv, postCV_store_single_valid p T hv]
      have fix1 := firstIs_mongoUpsert
        (matchCV (p.codigo.getD "") (p.volumen.getD "")) (applySetCV p)
        (insertDocCV p) (matchCV_applySet p) (applySetCV_idem p)
        (matchCV_insertDoc p) (applySetCV_insertDoc p) T
      rw [mongoUpsert_of_firstIs _ _ _ _ fix1]
    · rw [postCV_store_single_invalid p _ (Bool.not_eq_true _ ▸ hv),
        postCV_store_single_invalid p T (Bool.not_eq_true _ ▸ hv)]

/-- Claim C9.  PATCH /products/location/:codigo with a non-empty
location answers 200 and rewrites exactly the location field of the
first document carrying that codigo, leaving its other fields and
every other document unchanged; an absent location answers 400 with
the store untouched. -/
theorem c9_patch_location (S : List ProductA) (codigo l : String)
    (hl : l ≠ "")
    (hex : ∃ x, findFirst (fun r => r.codigo == codigo) S = some x) :
    (patchLocationA S codigo (some l)).1 = 200
  ∧ (∃ pre x post, S = pre ++ x :: post
      ∧ (∀ y ∈ pre, (y.codigo == codigo) = false)
      ∧ (x.codigo == codigo) = true
      ∧ (patchLocationA S codigo (some l)).2 =
          pre ++ { x with location := l } :: post)
  ∧ (∀ (Tst : List ProductA) (c : String),
      patchLocationA Tst c none = (400, Tst)) := by
  obtain ⟨x, hx⟩ := hex
  have htr : strTruthy (some l) = true := by simp [strTruthy, hl]
  obtain ⟨pre, post, hS, hpre, hqx, hupd⟩ :=
    updateFirstWhere_spec (fun r => r.codigo == codigo)
      (fun r => { r with location := l }) S x hx
  refine ⟨?_, ⟨pre, x, post, hS, hpre, hqx, ?_⟩, ?_⟩
  · simp [patchLocationA, htr, hx]
  · simp only [patchLocationA, htr, Bool.not_true, Bool.false_eq_true,
      if_false, hx, Option.getD_some]
    exact hupd
  · intro Tst c
    simp [patchLocationA, strTruthy]

/-- Claim C9, witness: patching the location of the stored product
with codigo X in a singleton store. -/
theorem c9_patch_location_witness :
    (patchLocationA [sampleProductA] "X" (some "estante")).1 = 200
  ∧ (∃ pre x post, [sampleProductA] = pre ++ x :: post
      ∧ (∀ y ∈ pre, (y.codigo == "X") = false)
      ∧ (x.codigo == "X") = true
      ∧ (patchLocationA [sampleProductA] "X" (some "estante")).2 =
          pre ++ { x with location := "estante" } :: post)
  ∧ (∀ (Tst : List ProductA) (c : String),
      patchLocationA Tst c none = (400, Tst)) :=
  c9_patch_location [sampleProductA] "X" "estante" (by decide)
    ⟨sampleProductA, by decide⟩

/-- The update document PUT /products/id/:id actually submits when the
body carries a stock value: the body with _id and __v stripped and
stock replaced by current + submitted. -/
def stripIdSetStock (body : Payload) (v : Int) : Payload :=
  { body with
    _id := none
    __v := none
    stock := some v }

/-- Claim C10.  In the codigo+volumen revision, PUT /products/id/:id
on an existing product with a body carrying stock s answers 200,
stores previous stock + s (increment semantics) while every other
provided field overwrites (e.g. nombre), and never modifies any
document's _id because _id and __v are stripped from the body. -/
theorem c10_put_by_id_stock_inc (r : ProductCV) (rest : List ProductCV)
    (body : Payload) (s : Int)
    (hid : isValidObjectId r.oid = true) (hs : body.stock = some s) :
    (putByIdCV (r :: rest) r.oid body).1 = 200
  ∧ (putByIdCV (r :: rest) r.oid body).2 =
      applyPartialCV (stripIdSetStock body (r.stock + s)) r :: rest
  ∧ (applyPartialCV (stripIdSetStock body (r.stock + s)) r).oid = r.oid
  ∧ (applyPartialCV (stripIdSetStock body (r.stock + s)) r).stock =
      r.stock + s
  ∧ (applyPartialCV (stripIdSetStock body (r.stock + s)) r).nombre =
      body.nombre.getD r.nombre
  ∧ ((putByIdCV (r :: rest) r.oid body).2.map (fun x => x.oid)) =
      (r :: rest).map (fun x => x.oid) := by
  have hfind : findByIdCV (r :: rest) r.oid = some r := by
    simp [findByIdCV, findFirst]
  have hrun : putByIdCV (r :: rest) r.oid body =
      (200, applyPartialCV (stripIdSetStock body (r.stock + s)) r :: rest) := by
    simp [putByIdCV, hid, hfind, hs, stripIdSetStock, updateFirstWhere]
  refine ⟨by rw [hrun], by rw [hrun], rfl, rfl, rfl, ?_⟩
  rw [hrun]
  simp [applyPartialCV, stripIdSetStock]

/-- Claim C10, witness: incrementing the stock of a concrete stored
product by 4 while overwriting nombre and attempting to smuggle a new
_id in the body. -/
theorem c10_put_by_id_stock_inc_witness :
    (putByIdCV [sampleProductCV] sampleProductCV.oid c10Body).1 = 200
  ∧ (putByIdCV [sampleProductCV] sampleProductCV.oid c10Body).2 =
      applyPartialCV (stripIdSetStock c10Body (sampleProductCV.stock + 4))
        sampleProductCV :: []
  ∧ (applyPartialCV (stripIdSetStock c10Body (sampleProductCV.stock + 4))
      sampleProductCV).oid = sampleProductCV.oid
  ∧ (applyPartialCV (stripIdSetStock c10Body (sampleProductCV.stock + 4))
      sampleProductCV).stock = sampleProductCV.stock + 4
  ∧ (applyPartialCV (stripIdSetStock c10Body (sampleProductCV.stock + 4))
      sampleProductCV).nombre = c10Body.nombre.getD sampleProductCV.nombre
  ∧ ((putByIdCV [sampleProductCV] sampleProductCV.oid c10Body).2.map
      (fun x => x.oid)) = [sampleProductCV].map (fun x => x.oid) :=
  c10_put_by_id_stock_inc sampleProductCV [] c10Body 4 (by decide) rfl

end Inventario
